import Mathlib

/-
Verification of the safe expression evaluators of the calculator repository.

The repository concatenates several calculator front ends.  The evaluation
core appears three times as an AST-walking interpreter named safe_eval:

  evaluator A: the scientific Calculator.py section    (safe_eval, OPERATORS,
               SAFE_NAMES with the log lambda taking a keyword base);
  evaluator B: the scientific Calculator10.py section  (safe_eval with an
               extra_names overlay, wrapped binary operators, tau and cbrt);
  evaluator C: the scientific Calculator9.py section   (safe_eval returning
               the strings Syntax Error and Math Error instead of raising).

This file embeds the three evaluators shallowly.  Python numbers are
modelled as exact values: ints as Int, floats as the exact rational value of
the IEEE-754 binary64 double, with roundB64 applying the binary64 rounding
at literal conversion and at every float operation.  The model covers the
finite range of doubles (no overflow to infinity, no subnormal detail) and
abstracts the transcendental library functions behind a structure of
primitives (Prims): the evaluators are parameterised over it, so theorems
about which primitive is invoked and about all domain checks hold for every
interpretation.  Complex numbers, which Python produces for a negative base
raised to a non-integral float power, are abstracted to a single token.

Raised Python exceptions are modelled as the error branch of Except; an
evaluator that catches them (evaluator C) is total and returns its tagged
strings, one that does not (evaluator A) surfaces the exception to its
caller.  The recursion limit of the Python interpreter is not modelled:
evaluation is structural over the AST.
-/

set_option allowUnsafeReducibility true
attribute [semireducible] Rat.add Rat.sub Rat.mul Rat.inv Rat.ofScientific

set_option maxRecDepth 16000

namespace PyCalc

/-- Fuel-driven base-2 logarithm on naturals, structural so that the kernel
evaluates it: log2fuel f n is the floor of log2 n for n in [1, 2^f). -/
def log2fuel : Nat → Nat → Nat
  | 0, _ => 0
  | f + 1, n => if n ≤ 1 then 0 else log2fuel f (n / 2) + 1

/-- Floor of the base-2 logarithm of a natural number (0 for 0 and 1). -/
def log2N (n : Nat) : Nat := log2fuel 4000 n

/-- Two to an integer power, as a rational. -/
def qpow2 (g : ℤ) : ℚ :=
  if 0 ≤ g then ((2 ^ g.toNat : ℕ) : ℚ) else 1 / ((2 ^ (-g).toNat : ℕ) : ℚ)

/-- Round a rational to the nearest integer with ties to even: the rounding
of the Python builtin round() on floats and of IEEE-754 binary64. -/
def rne (q : ℚ) : ℤ :=
  let f := ⌊q⌋
  let r := q - (f : ℚ)
  if r < 1/2 then f
  else if 1/2 < r then f + 1
  else if f % 2 = 0 then f else f + 1

/-- Floor of the base-2 logarithm of a positive rational. -/
def ilog2 (q : ℚ) : ℤ :=
  let L : ℤ := (log2N q.num.toNat : ℤ) - (log2N q.den : ℤ)
  if qpow2 L ≤ q then L else L - 1

/-- Binary64 rounding (nearest, ties to even) of an exact rational: the
value a Python float literal or float arithmetic operation produces.
Finite range only; overflow to infinity is outside the scope of the model. -/
def roundB64 (q : ℚ) : ℚ :=
  if q = 0 then 0
  else
    let a := |q|
    let e := ilog2 a
    let g := max (e - 52) (-1074)
    let m := rne (a / qpow2 g)
    let r := (m : ℚ) * qpow2 g
    if q < 0 then -r else r

/-- The exact rational value of the double math.pi. -/
def piD : ℚ := 884279719003555 / 281474976710656

/-- The exact rational value of the double math.e. -/
def eD : ℚ := 6121026514868073 / 2251799813685248

/-- The exact rational value of the double math.tau. -/
def tauD : ℚ := 884279719003555 / 140737488355328

end PyCalc

namespace PyCalc

/-- Truncation toward zero: the int() conversion of a Python float. -/
def truncQ (q : ℚ) : ℤ := if 0 ≤ q then ⌊q⌋ else -⌊-q⌋

/-- Ten to an integer power, as a rational. -/
def pow10 (g : ℤ) : ℚ :=
  if 0 ≤ g then ((10 ^ g.toNat : ℕ) : ℚ) else 1 / ((10 ^ (-g).toNat : ℕ) : ℚ)

/-- Whether a rational is integral. -/
def isIntQ (q : ℚ) : Bool := q.den = 1

/-- The allow-listed functions occurring in the three SAFE_NAMES tables.
logA is the log lambda of evaluator A (natural log unless a base other than
math.e is supplied), logB the log lambda of evaluator B (always the two
argument math.log), logC is math.log itself as listed by evaluator C. -/
inductive Fn
  | sin | cos | tan | asin | acos | atan
  | sinh | cosh | tanh | asinh | acosh | atanh
  | logA | logB | logC | ln | log10 | exp | sqrt | cbrt
  | fabs | fround | floor | ceil
  | factorial | deg | rad | comb | perm
deriving DecidableEq, Repr

/-- A Python runtime value flowing through the evaluators.  Floats carry the
exact rational value of the binary64 double; complex numbers are abstracted
to a single token; pyfun is a bare function object (evaluator C returns one
for a bare function name). -/
inductive Value
  | int (n : ℤ)
  | float (q : ℚ)
  | bool (b : Bool)
  | str (s : String)
  | pynone
  | complex
  | pyfun (f : Fn)
deriving DecidableEq, Repr

/-- A raised Python exception.  safeEvalError is the SafeEvalError class the
source defines; the others are the raw interpreter exceptions. -/
inductive PyExc
  | safeEvalError (msg : String)
  | zeroDivisionError (msg : String)
  | valueError (msg : String)
  | typeError (msg : String)
  | attributeError (msg : String)
  | keyError (msg : String)
deriving DecidableEq, Repr

/-- str(e) of a caught exception: what the source interpolates when it wraps
an exception into a SafeEvalError. -/
def PyExc.msg : PyExc → String
  | .safeEvalError m => m
  | .zeroDivisionError m => m
  | .valueError m => m
  | .typeError m => m
  | .attributeError m => m
  | .keyError m => m

/-- A literal constant node of the Python AST (ast.Constant). -/
inductive PyConst
  | pint (n : ℤ)
  | pfloat (q : ℚ)
  | pbool (b : Bool)
  | pstr (s : String)
  | pnone
  | pimag
deriving DecidableEq, Repr

/-- The binary operator tags of the OPERATORS tables. -/
inductive BinOpK
  | add | sub | mul | div | pow | modOp | floorDiv
deriving DecidableEq, Repr

/-- The unary operator tags (ast.USub, ast.UAdd). -/
inductive UnOpK
  | usub | uadd
deriving DecidableEq, Repr

mutual
/-- The Python expression AST shapes the evaluators inspect.  The func of a
call is itself a node, as in ast.Call; attr, subscript and listLit stand for
the node shapes outside the supported grammar. -/
inductive Ast
  | const (c : PyConst)
  | binop (op : BinOpK) (l r : Ast)
  | unop (op : UnOpK) (a : Ast)
  | call (f : Ast) (args : AstL) (kws : KwL)
  | name (id : String)
  | attr (v : Ast) (field : String)
  | subscript (v : Ast) (ix : Ast)
  | listLit (xs : AstL)
/-- A list of positional argument nodes. -/
inductive AstL
  | anil
  | acons (a : Ast) (t : AstL)
/-- A list of keyword argument nodes. -/
inductive KwL
  | knil
  | kcons (k : String) (a : Ast) (t : KwL)
end

/-- Interpretation of the transcendental C library functions reached through
the math module.  The evaluators are parameterised over it; all domain
checks happen in the model before a primitive is consulted, exactly where
CPython raises, so theorems about errors and about which primitive is
invoked hold for every interpretation.  Arguments and results are exact
double values.  cabs abstracts abs of the (opaque) complex token. -/
structure Prims where
  sin : ℚ → ℚ := fun _ => 0
  cos : ℚ → ℚ := fun _ => 0
  tan : ℚ → ℚ := fun _ => 0
  asin : ℚ → ℚ := fun _ => 0
  acos : ℚ → ℚ := fun _ => 0
  atan : ℚ → ℚ := fun _ => 0
  sinh : ℚ → ℚ := fun _ => 0
  cosh : ℚ → ℚ := fun _ => 0
  tanh : ℚ → ℚ := fun _ => 0
  asinh : ℚ → ℚ := fun _ => 0
  acosh : ℚ → ℚ := fun _ => 0
  atanh : ℚ → ℚ := fun _ => 0
  ln : ℚ → ℚ := fun _ => 0
  logb : ℚ → ℚ → ℚ := fun _ _ => 0
  log10 : ℚ → ℚ := fun _ => 0
  exp : ℚ → ℚ := fun _ => 0
  sqrt : ℚ → ℚ := fun _ => 0
  powf : ℚ → ℚ → ℚ := fun _ _ => 0
  deg : ℚ → ℚ := fun _ => 0
  rad : ℚ → ℚ := fun _ => 0
  cabs : ℚ := 0

/-- The default interpretation used for closed, interpretation-independent
evaluations. -/
def P0 : Prims := {}

/-- The double a numeric value converts to when an operation needs a float:
float(n) for ints (binary64 rounding), 0.0 and 1.0 for bools. -/
def Value.toF : Value → Option ℚ
  | .int n => some (roundB64 (n : ℚ))
  | .float q => some q
  | .bool b => some (if b then 1 else 0)
  | _ => none

/-- The integer content of an int-like value (a Python bool is an int). -/
def Value.toI : Value → Option ℤ
  | .int n => some n
  | .bool b => some (if b then 1 else 0)
  | _ => none

/-- Whether the value is the complex token. -/
def Value.isComplex : Value → Bool
  | .complex => true
  | _ => false

/-- Python float modulo: remainder with the sign of the divisor.  The fmod
part is exact in binary64; the adjusting addition rounds. -/
def floatMod (x y : ℚ) : ℚ :=
  let r := x - (truncQ (x / y) : ℚ) * y
  if r = 0 then 0
  else if (decide (r < 0)) = (decide (y < 0)) then r else roundB64 (r + y)

/-- Integer arithmetic of the operator module: exact on arbitrary precision
ints; true division produces a correctly rounded double; floor division and
modulo follow the Python floor convention. -/
def intArith (op : BinOpK) (x y : ℤ) : Except PyExc Value :=
  match op with
  | .add => .ok (.int (x + y))
  | .sub => .ok (.int (x - y))
  | .mul => .ok (.int (x * y))
  | .div =>
    if y = 0 then .error (.zeroDivisionError "division by zero")
    else .ok (.float (roundB64 ((x : ℚ) / (y : ℚ))))
  | .modOp =>
    if y = 0 then .error (.zeroDivisionError "integer modulo by zero")
    else .ok (.int (Int.fmod x y))
  | .floorDiv =>
    if y = 0 then .error (.zeroDivisionError "integer division or modulo by zero")
    else .ok (.int (Int.fdiv x y))
  | .pow =>
    if 0 ≤ y then .ok (.int (x ^ y.toNat))
    else if x = 0 then .error (.zeroDivisionError "0.0 cannot be raised to a negative power")
    else .ok (.float (roundB64 (1 / ((x : ℚ) ^ (-y).toNat))))

/-- Float arithmetic of the operator module over exact double values, with
binary64 rounding on each operation.  A negative base under a non-integral
exponent yields a complex number, as the Python power operator does. -/
def floatArith (P : Prims) (op : BinOpK) (x y : ℚ) : Except PyExc Value :=
  match op with
  | .add => .ok (.float (roundB64 (x + y)))
  | .sub => .ok (.float (roundB64 (x - y)))
  | .mul => .ok (.float (roundB64 (x * y)))
  | .div =>
    if y = 0 then .error (.zeroDivisionError "float division by zero")
    else .ok (.float (roundB64 (x / y)))
  | .modOp =>
    if y = 0 then .error (.zeroDivisionError "float modulo")
    else .ok (.float (floatMod x y))
  | .floorDiv =>
    if y = 0 then .error (.zeroDivisionError "float floor division")
    else .ok (.float (roundB64 ((⌊x / y⌋ : ℤ) : ℚ)))
  | .pow =>
    if x < 0 then
      if isIntQ y then .ok (.float (P.powf x y)) else .ok .complex
    else if x = 0 ∧ y < 0 then
      .error (.zeroDivisionError "0.0 cannot be raised to a negative power")
    else .ok (.float (P.powf x y))

/-- Arithmetic where one side is the complex token. -/
def complexArith (op : BinOpK) (a b : Value) : Except PyExc Value :=
  let otherOk (v : Value) : Bool := v.isComplex || v.toF.isSome
  if otherOk a && otherOk b then
    match op with
    | .modOp => .error (.typeError "unsupported operand type(s) for %")
    | .floorDiv => .error (.typeError "unsupported operand type(s) for //")
    | _ => .ok .complex
  else .error (.typeError "unsupported operand type(s)")

/-- A Python string repeated n times (string * int). -/
def repeatStr (n : ℤ) (s : String) : String :=
  String.join (List.replicate n.toNat s)

/-- The string cases of Python + and *. -/
def strArith (op : BinOpK) (a b : Value) : Except PyExc Value :=
  match op, a, b with
  | .add, .str s, .str t => .ok (.str (s ++ t))
  | .mul, .str s, .int n => .ok (.str (repeatStr n s))
  | .mul, .str s, .bool c => .ok (.str (repeatStr (if c then 1 else 0) s))
  | .mul, .int n, .str s => .ok (.str (repeatStr n s))
  | .mul, .bool c, .str s => .ok (.str (repeatStr (if c then 1 else 0) s))
  | _, _, _ => .error (.typeError "unsupported operand type(s)")

/-- The binary dispatch of the operator module: ints stay exact, a float
operand switches to float arithmetic, complex and strings as in CPython. -/
def applyBin (P : Prims) (op : BinOpK) (a b : Value) : Except PyExc Value :=
  match a.toI, b.toI with
  | some x, some y => intArith op x y
  | _, _ =>
    match a.toF, b.toF with
    | some x, some y => floatArith P op x y
    | _, _ =>
      if a.isComplex || b.isComplex then complexArith op a b
      else strArith op a b

/-- operator.neg and operator.pos on runtime values. -/
def applyUn (op : UnOpK) (v : Value) : Except PyExc Value :=
  match op with
  | .usub =>
    match v.toI with
    | some n => .ok (.int (-n))
    | none =>
      match v with
      | .float q => .ok (.float (-q))
      | .complex => .ok .complex
      | _ => .error (.typeError "bad operand type for unary -")
  | .uadd =>
    match v.toI with
    | some n => .ok (.int n)
    | none =>
      match v with
      | .float q => .ok (.float q)
      | .complex => .ok .complex
      | _ => .error (.typeError "bad operand type for unary +")

end PyCalc

namespace PyCalc

/-- Coercion of a math-module argument to a double; complex and non-numeric
arguments raise TypeError, as CPython math functions do. -/
def argFloat : Value → Except PyExc ℚ
  | v =>
    match v.toF with
    | some x => .ok x
    | none => .error (.typeError "must be real number")

/-- The math domain error every out-of-domain math call raises. -/
def mde : Except PyExc Value := .error (.valueError "math domain error")

/-- math.log with one argument (natural log), with its domain check. -/
def lnP (P : Prims) (x : Value) : Except PyExc Value := do
  let xf ← argFloat x
  if xf ≤ 0 then mde else .ok (.float (P.ln xf))

/-- math.log with an explicit base: log(x)/log(base).  Non-positive inputs
raise the domain error; base 1 divides by log(1) = 0 and raises
ZeroDivisionError. -/
def logBaseP (P : Prims) (x : Value) (bf : ℚ) : Except PyExc Value := do
  let xf ← argFloat x
  if xf ≤ 0 ∨ bf ≤ 0 then mde
  else if bf = 1 then .error (.zeroDivisionError "float division by zero")
  else .ok (.float (P.logb xf bf))

/-- The log lambda of evaluator A: natural log unless a base different from
the double math.e is supplied (positionally or by the keyword base). -/
def applyLogA (P : Prims) (args : List Value) (kws : List (String × Value)) :
    Except PyExc Value :=
  match args, kws with
  | [x], [] => lnP P x
  | [x], [(k, b)] =>
    if k = "base" then do
      let bf ← argFloat b
      if bf = eD then lnP P x else logBaseP P x bf
    else .error (.typeError "got an unexpected keyword argument")
  | [x, b], [] => do
    let bf ← argFloat b
    if bf = eD then lnP P x else logBaseP P x bf
  | _, _ => .error (.typeError "invalid arguments")

/-- The log lambda of evaluator B: always the two argument math.log, with
the base defaulting to the double math.e. -/
def applyLogB (P : Prims) (args : List Value) (kws : List (String × Value)) :
    Except PyExc Value :=
  match args, kws with
  | [x], [] => logBaseP P x eD
  | [x], [(k, b)] =>
    if k = "base" then do
      let bf ← argFloat b
      logBaseP P x bf
    else .error (.typeError "got an unexpected keyword argument")
  | [x, b], [] => do
    let bf ← argFloat b
    logBaseP P x bf
  | _, _ => .error (.typeError "invalid arguments")

/-- math.log as listed by evaluator C: one or two positional arguments and
no keywords. -/
def applyLogC (P : Prims) (args : List Value) (kws : List (String × Value)) :
    Except PyExc Value :=
  match args, kws with
  | [x], [] => lnP P x
  | [x, b], [] => do
    let bf ← argFloat b
    logBaseP P x bf
  | _, _ => .error (.typeError "invalid arguments")

/-- The exact double value of the literal 1.0/3.0 in the cbrt lambda. -/
def oneThirdD : ℚ := roundB64 (1 / 3)

/-- One positional argument, no keywords, of the remaining table functions. -/
def applyFn1 (P : Prims) (f : Fn) (args : List Value) : Except PyExc Value :=
  match f, args with
  | .sin, [v] => do let x ← argFloat v; .ok (.float (P.sin x))
  | .cos, [v] => do let x ← argFloat v; .ok (.float (P.cos x))
  | .tan, [v] => do let x ← argFloat v; .ok (.float (P.tan x))
  | .asin, [v] => do
    let x ← argFloat v
    if x < -1 ∨ 1 < x then mde else .ok (.float (P.asin x))
  | .acos, [v] => do
    let x ← argFloat v
    if x < -1 ∨ 1 < x then mde else .ok (.float (P.acos x))
  | .atan, [v] => do let x ← argFloat v; .ok (.float (P.atan x))
  | .sinh, [v] => do let x ← argFloat v; .ok (.float (P.sinh x))
  | .cosh, [v] => do let x ← argFloat v; .ok (.float (P.cosh x))
  | .tanh, [v] => do let x ← argFloat v; .ok (.float (P.tanh x))
  | .asinh, [v] => do let x ← argFloat v; .ok (.float (P.asinh x))
  | .acosh, [v] => do
    let x ← argFloat v
    if x < 1 then mde else .ok (.float (P.acosh x))
  | .atanh, [v] => do
    let x ← argFloat v
    if x ≤ -1 ∨ 1 ≤ x then mde else .ok (.float (P.atanh x))
  | .sqrt, [v] => do
    let x ← argFloat v
    if x < 0 then mde else .ok (.float (P.sqrt x))
  | .ln, [v] => lnP P v
  | .log10, [v] => do
    let x ← argFloat v
    if x ≤ 0 then mde else .ok (.float (P.log10 x))
  | .exp, [v] => do let x ← argFloat v; .ok (.float (P.exp x))
  | .deg, [v] => do let x ← argFloat v; .ok (.float (P.deg x))
  | .rad, [v] => do let x ← argFloat v; .ok (.float (P.rad x))
  | .cbrt, [v] => applyBin P .pow v (.float oneThirdD)
  | .fabs, [v] =>
    match v with
    | .int n => .ok (.int |n|)
    | .bool b => .ok (.int (if b then 1 else 0))
    | .float q => .ok (.float |q|)
    | .complex => .ok (.float P.cabs)
    | _ => .error (.typeError "bad operand type for abs()")
  | .fround, [v] =>
    match v with
    | .float q => .ok (.int (rne q))
    | .int n => .ok (.int n)
    | .bool b => .ok (.int (if b then 1 else 0))
    | _ => .error (.typeError "type does not define __round__ method")
  | .fround, [v, nd] =>
    match v, nd.toI with
    | .float q, some k => .ok (.float (roundB64 ((rne (q * pow10 k) : ℚ) / pow10 k)))
    | .int n, some k =>
      if 0 ≤ k then .ok (.int n)
      else .ok (.int (rne ((n : ℚ) / pow10 (-k)) * 10 ^ (-k).toNat))
    | _, _ => .error (.typeError "invalid arguments")
  | .floor, [v] =>
    match v with
    | .float q => .ok (.int ⌊q⌋)
    | .int n => .ok (.int n)
    | .bool b => .ok (.int (if b then 1 else 0))
    | _ => .error (.typeError "must be real number")
  | .ceil, [v] =>
    match v with
    | .float q => .ok (.int ⌈q⌉)
    | .int n => .ok (.int n)
    | .bool b => .ok (.int (if b then 1 else 0))
    | _ => .error (.typeError "must be real number")
  | .factorial, [v] =>
    match v.toI with
    | some n =>
      if n < 0 then .error (.valueError "factorial() not defined for negative values")
      else .ok (.int (Nat.factorial n.toNat))
    | none => .error (.typeError "object cannot be interpreted as an integer")
  | .comb, [a, b] =>
    match a.toI, b.toI with
    | some n, some k =>
      if n < 0 ∨ k < 0 then .error (.valueError "n must be a non-negative integer")
      else .ok (.int (Nat.choose n.toNat k.toNat))
    | _, _ => .error (.typeError "object cannot be interpreted as an integer")
  | .perm, [a, b] =>
    match a.toI, b.toI with
    | some n, some k =>
      if n < 0 ∨ k < 0 then .error (.valueError "n must be a non-negative integer")
      else .ok (.int (Nat.descFactorial n.toNat k.toNat))
    | _, _ => .error (.typeError "object cannot be interpreted as an integer")
  | _, _ => .error (.typeError "invalid number of arguments")

/-- Application of a table function to evaluated arguments, dispatching the
three log variants (which accept a base) and everything else. -/
def applyFn (P : Prims) (f : Fn) (args : List Value)
    (kws : List (String × Value)) : Except PyExc Value :=
  match f with
  | .logA => applyLogA P args kws
  | .logB => applyLogB P args kws
  | .logC => applyLogC P args kws
  | g =>
    if kws.isEmpty then applyFn1 P g args
    else .error (.typeError "takes no keyword arguments")

end PyCalc

namespace PyCalc

/-- A binding table entry: a numeric constant or a callable. -/
inductive Entry
  | constV (v : Value)
  | fnV (f : Fn)
deriving DecidableEq, Repr

/-- SAFE_NAMES of evaluator A (scientific Calculator.py): constants pi and
e, the trig and hyperbolic families, the log lambda, ln, log10, sqrt, abs,
round, floor, ceil, factorial with its fact alias, deg and rad. -/
def lookupA (s : String) : Option Entry :=
  match s with
  | "pi" => some (.constV (.float piD))
  | "e" => some (.constV (.float eD))
  | "sin" => some (.fnV .sin)
  | "cos" => some (.fnV .cos)
  | "tan" => some (.fnV .tan)
  | "asin" => some (.fnV .asin)
  | "acos" => some (.fnV .acos)
  | "atan" => some (.fnV .atan)
  | "sinh" => some (.fnV .sinh)
  | "cosh" => some (.fnV .cosh)
  | "tanh" => some (.fnV .tanh)
  | "log" => some (.fnV .logA)
  | "ln" => some (.fnV .ln)
  | "log10" => some (.fnV .log10)
  | "sqrt" => some (.fnV .sqrt)
  | "abs" => some (.fnV .fabs)
  | "round" => some (.fnV .fround)
  | "floor" => some (.fnV .floor)
  | "ceil" => some (.fnV .ceil)
  | "factorial" => some (.fnV .factorial)
  | "fact" => some (.fnV .factorial)
  | "deg" => some (.fnV .deg)
  | "rad" => some (.fnV .rad)
  | "asinh" => some (.fnV .asinh)
  | "acosh" => some (.fnV .acosh)
  | "atanh" => some (.fnV .atanh)
  | _ => none

/-- The base SAFE_NAMES of evaluator B (scientific Calculator10.py): adds
tau, cbrt, comb and perm, and its log lambda always calls the two argument
math.log. -/
def lookupBbase (s : String) : Option Entry :=
  match s with
  | "pi" => some (.constV (.float piD))
  | "e" => some (.constV (.float eD))
  | "tau" => some (.constV (.float tauD))
  | "sin" => some (.fnV .sin)
  | "cos" => some (.fnV .cos)
  | "tan" => some (.fnV .tan)
  | "asin" => some (.fnV .asin)
  | "acos" => some (.fnV .acos)
  | "atan" => some (.fnV .atan)
  | "sinh" => some (.fnV .sinh)
  | "cosh" => some (.fnV .cosh)
  | "tanh" => some (.fnV .tanh)
  | "asinh" => some (.fnV .asinh)
  | "acosh" => some (.fnV .acosh)
  | "atanh" => some (.fnV .atanh)
  | "log" => some (.fnV .logB)
  | "ln" => some (.fnV .ln)
  | "log10" => some (.fnV .log10)
  | "sqrt" => some (.fnV .sqrt)
  | "cbrt" => some (.fnV .cbrt)
  | "abs" => some (.fnV .fabs)
  | "round" => some (.fnV .fround)
  | "floor" => some (.fnV .floor)
  | "ceil" => some (.fnV .ceil)
  | "factorial" => some (.fnV .factorial)
  | "fact" => some (.fnV .factorial)
  | "deg" => some (.fnV .deg)
  | "rad" => some (.fnV .rad)
  | "comb" => some (.fnV .comb)
  | "perm" => some (.fnV .perm)
  | _ => none

/-- The per-call table of evaluator B: the base table updated with the
extra_names overlay (the overlay wins, as dict.update does). -/
def lookupB (extra : List (String × Value)) (s : String) : Option Entry :=
  match List.lookup s extra with
  | some v => some (.constV v)
  | none => lookupBbase s

/-- SAFE_NAMES of evaluator C (scientific Calculator9.py): a smaller table
with exp present, log bound to math.log directly, and no hyperbolics, no
fact alias, no deg or rad. -/
def lookupC (s : String) : Option Entry :=
  match s with
  | "pi" => some (.constV (.float piD))
  | "e" => some (.constV (.float eD))
  | "sin" => some (.fnV .sin)
  | "cos" => some (.fnV .cos)
  | "tan" => some (.fnV .tan)
  | "asin" => some (.fnV .asin)
  | "acos" => some (.fnV .acos)
  | "atan" => some (.fnV .atan)
  | "sqrt" => some (.fnV .sqrt)
  | "log" => some (.fnV .logC)
  | "log10" => some (.fnV .log10)
  | "exp" => some (.fnV .exp)
  | "abs" => some (.fnV .fabs)
  | "round" => some (.fnV .fround)
  | "floor" => some (.fnV .floor)
  | "ceil" => some (.fnV .ceil)
  | "factorial" => some (.fnV .factorial)
  | _ => none

/-- The OPERATORS table of evaluator C has no FloorDiv entry. -/
def opInC (op : BinOpK) : Bool :=
  match op with
  | .floorDiv => false
  | _ => true

/-- The try/except around the function application in evaluator A: any
exception becomes SafeEvalError(str(e)). -/
def wrapA (r : Except PyExc Value) : Except PyExc Value :=
  match r with
  | .ok v => .ok v
  | .error e => .error (.safeEvalError e.msg)

/-- The try/except around the function application in evaluator B: the
message is prefixed with Function error. -/
def wrapB (r : Except PyExc Value) : Except PyExc Value :=
  match r with
  | .ok v => .ok v
  | .error e => .error (.safeEvalError ("Function error: " ++ e.msg))

/-- The try/except around the binary operator application in evaluator B. -/
def wrapOpB (r : Except PyExc Value) : Except PyExc Value :=
  match r with
  | .ok v => .ok v
  | .error e => .error (.safeEvalError e.msg)

mutual
/-- The recursive _eval of evaluator A.  The error branch is a raised
exception: rejected constructs raise SafeEvalError; operator application is
not wrapped, so raw exceptions (ZeroDivisionError among them) propagate;
only the function application itself is wrapped into SafeEvalError(str(e)).
The membership check of a call happens before its arguments are evaluated. -/
def evalA (P : Prims) : Ast → Except PyExc Value
  | .const c =>
    match c with
    | .pint n => .ok (.int n)
    | .pfloat q => .ok (.float q)
    | .pbool b => .ok (.bool b)
    | _ => .error (.safeEvalError "Invalid constant")
  | .binop op l r => do
    let lv ← evalA P l
    let rv ← evalA P r
    applyBin P op lv rv
  | .unop op a => do
    let v ← evalA P a
    applyUn op v
  | .call f args kws =>
    match f with
    | .name fname =>
      match lookupA fname with
      | some ent => do
        let argv ← evalAL P args
        let kwv ← evalAK P kws
        match ent with
        | .fnV g => wrapA (applyFn P g argv kwv)
        | .constV _ => wrapA (.error (.typeError "'float' object is not callable"))
      | none => .error (.safeEvalError ("Function '" ++ fname ++ "' not allowed"))
    | _ => .error (.safeEvalError "Unsafe function call")
  | .name id =>
    match lookupA id with
    | some (.constV v) => .ok v
    | some (.fnV _) =>
      .error (.safeEvalError ("'" ++ id ++ "' is a function, call it with ()"))
    | none => .error (.safeEvalError ("Name '" ++ id ++ "' not allowed"))
  | .subscript _ _ => .error (.safeEvalError "Subscript not allowed")
  | .attr _ _ => .error (.safeEvalError "Unsupported expression element")
  | .listLit _ => .error (.safeEvalError "Unsupported expression element")

/-- Left-to-right evaluation of positional arguments by evaluator A. -/
def evalAL (P : Prims) : AstL → Except PyExc (List Value)
  | .anil => .ok []
  | .acons a t => do
    let v ← evalA P a
    let vs ← evalAL P t
    .ok (v :: vs)

/-- Evaluation of keyword arguments by evaluator A. -/
def evalAK (P : Prims) : KwL → Except PyExc (List (String × Value))
  | .knil => .ok []
  | .kcons k a t => do
    let v ← evalA P a
    let vs ← evalAK P t
    .ok ((k, v) :: vs)
end

mutual
/-- The recursive _eval of evaluator B: as evaluator A but over the
overlaid table, with binary operator application wrapped into
SafeEvalError(str(e)) and function errors wrapped with the prefix
Function error. -/
def evalB (P : Prims) (extra : List (String × Value)) : Ast → Except PyExc Value
  | .const c =>
    match c with
    | .pint n => .ok (.int n)
    | .pfloat q => .ok (.float q)
    | .pbool b => .ok (.bool b)
    | _ => .error (.safeEvalError "Invalid literal")
  | .binop op l r => do
    let lv ← evalB P extra l
    let rv ← evalB P extra r
    wrapOpB (applyBin P op lv rv)
  | .unop op a => do
    let v ← evalB P extra a
    applyUn op v
  | .call f args kws =>
    match f with
    | .name fname =>
      match lookupB extra fname with
      | some ent => do
        let argv ← evalBL P extra args
        let kwv ← evalBK P extra kws
        match ent with
        | .fnV g => wrapB (applyFn P g argv kwv)
        | .constV _ => wrapB (.error (.typeError "'float' object is not callable"))
      | none => .error (.safeEvalError ("Function '" ++ fname ++ "' not allowed"))
    | _ => .error (.safeEvalError "Unsafe function call")
  | .name id =>
    match lookupB extra id with
    | some (.constV v) => .ok v
    | some (.fnV _) =>
      .error (.safeEvalError ("'" ++ id ++ "' is a function; call it with ()"))
    | none => .error (.safeEvalError ("Unknown name: " ++ id))
  | .subscript _ _ => .error (.safeEvalError "Unsupported expression element")
  | .attr _ _ => .error (.safeEvalError "Unsupported expression element")
  | .listLit _ => .error (.safeEvalError "Unsupported expression element")

/-- Left-to-right evaluation of positional arguments by evaluator B. -/
def evalBL (P : Prims) (extra : List (String × Value)) :
    AstL → Except PyExc (List Value)
  | .anil => .ok []
  | .acons a t => do
    let v ← evalB P extra a
    let vs ← evalBL P extra t
    .ok (v :: vs)

/-- Evaluation of keyword arguments by evaluator B. -/
def evalBK (P : Prims) (extra : List (String × Value)) :
    KwL → Except PyExc (List (String × Value))
  | .knil => .ok []
  | .kcons k a t => do
    let v ← evalB P extra a
    let vs ← evalBK P extra t
    .ok ((k, v) :: vs)
end

mutual
/-- The recursive _eval of evaluator C.  Constants of every kind are
returned verbatim (strings included); the operator lookup happens after
both operands and can fail with KeyError (no FloorDiv entry); a call reads
the function name first (a non-Name func raises AttributeError), evaluates
the positional arguments BEFORE the membership check and ignores keyword
arguments entirely; a bare known function name is returned as the function
object.  Nothing is wrapped: the single try of its safe_eval catches all. -/
def evalC (P : Prims) : Ast → Except PyExc Value
  | .const c =>
    match c with
    | .pint n => .ok (.int n)
    | .pfloat q => .ok (.float q)
    | .pbool b => .ok (.bool b)
    | .pstr s => .ok (.str s)
    | .pnone => .ok .pynone
    | .pimag => .ok .complex
  | .binop op l r => do
    let lv ← evalC P l
    let rv ← evalC P r
    if opInC op then applyBin P op lv rv
    else .error (.keyError "FloorDiv")
  | .unop op a => do
    let v ← evalC P a
    applyUn op v
  | .call f args _ =>
    match f with
    | .name fname => do
      let argv ← evalCL P args
      match lookupC fname with
      | some (.fnV g) => applyFn P g argv []
      | some (.constV _) => .error (.typeError "'float' object is not callable")
      | none => .error (.valueError ("Function " ++ fname ++ " not allowed"))
    | _ => .error (.attributeError "node has no attribute id")
  | .name id =>
    match lookupC id with
    | some (.constV v) => .ok v
    | some (.fnV g) => .ok (.pyfun g)
    | none => .error (.valueError ("Name " ++ id ++ " not allowed"))
  | .attr _ _ => .error (.valueError "Invalid expression")
  | .subscript _ _ => .error (.valueError "Invalid expression")
  | .listLit _ => .error (.valueError "Invalid expression")

/-- Left-to-right evaluation of positional arguments by evaluator C. -/
def evalCL (P : Prims) : AstL → Except PyExc (List Value)
  | .anil => .ok []
  | .acons a t => do
    let v ← evalC P a
    let vs ← evalCL P t
    .ok (v :: vs)
end

/-- The near-integer snap of evaluator A: a float within 1e-12 of round(x)
becomes that integer (round is the Python builtin, ties to even).  Every
other value passes through unchanged. -/
def snapA (v : Value) : Value :=
  match v with
  | .float q =>
    if |q - (rne q : ℚ)| < 1 / 1000000000000 then .int (rne q) else .float q
  | _ => v

/-- The near-integer snap of evaluator B, int(round(x)): the same
arithmetic as evaluator A. -/
def snapB (v : Value) : Value :=
  match v with
  | .float q =>
    if |q - (rne q : ℚ)| < 1 / 1000000000000 then .int (rne q) else .float q
  | _ => v

/-- The near-integer snap of evaluator C: int() truncates toward zero, so a
float is snapped only when it is within 1e-12 of its own truncation. -/
def snapC (v : Value) : Value :=
  match v with
  | .float q =>
    if |q - (truncQ q : ℚ)| < 1 / 1000000000000 then .int (truncQ q) else .float q
  | _ => v

end PyCalc

namespace PyCalc

/-- The tokens of the expression fragment of the Python grammar the
calculators use.  Number tokens carry their converted value: float literals
are binary64 rounded exactly as ast literal conversion does. -/
inductive Tok
  | intT (n : ℕ)
  | floatT (q : ℚ)
  | nameT (s : String)
  | strT (s : String)
  | imagT
  | plusT | minusT | starT | slashT | dstarT | dslashT | percentT
  | lparT | rparT | commaT | eqT | dotT
deriving DecidableEq, Repr

/-- Leading decimal digits of a character list. -/
def scanDigits : List Char → List Char × List Char
  | [] => ([], [])
  | c :: cs =>
    if c.isDigit then
      let (d, r) := scanDigits cs
      (c :: d, r)
    else ([], c :: cs)

/-- The natural number a list of decimal digits denotes. -/
def natOfDigits (ds : List Char) : ℕ :=
  ds.foldl (fun a c => a * 10 + (c.toNat - 48)) 0

/-- Assemble a scanned numeric literal.  The CPython rules of the fragment:
a fraction or an exponent makes it a float (converted to the nearest
double); a j suffix makes it imaginary; a plain nonzero int must not have a
leading zero. -/
def finishNum (ip : List Char) (dot : Bool) (fp : List Char) (hasExp : Bool)
    (epos : Bool) (e : ℕ) (rest : List Char) : Except String (Tok × List Char) :=
  let imag := match rest with
    | 'j' :: _ => true
    | 'J' :: _ => true
    | _ => false
  let rest' := if imag then rest.tail else rest
  if imag then .ok (.imagT, rest')
  else if dot ∨ hasExp then
    let mant : ℚ := (natOfDigits (ip ++ fp) : ℚ) / pow10 (fp.length : ℤ)
    let v : ℚ := mant * pow10 (if epos then (e : ℤ) else -(e : ℤ))
    .ok (.floatT (roundB64 v), rest')
  else
    if ip.length > 1 ∧ ip.headD ' ' = '0' ∧ ip.any (fun c => c ≠ '0') then
      .error "invalid decimal literal"
    else .ok (.intT (natOfDigits ip), rest')

/-- Scan a numeric literal starting at the given characters (the first is a
digit, or a dot followed by a digit). -/
def scanNumber (cs : List Char) : Except String (Tok × List Char) :=
  let (ip, r1) := scanDigits cs
  let (dot, fp, r2) :=
    match r1 with
    | '.' :: r =>
      let (f, r') := scanDigits r
      (true, f, r')
    | _ => (false, ([] : List Char), r1)
  if ip.isEmpty ∧ fp.isEmpty then .error "invalid number"
  else
    match r2 with
    | 'e' :: r3 =>
      let (epos, r4) :=
        match r3 with
        | '+' :: r => (true, r)
        | '-' :: r => (false, r)
        | _ => (true, r3)
      let (ed, r5) := scanDigits r4
      if ed.isEmpty then .error "invalid decimal literal"
      else finishNum ip dot fp true epos (natOfDigits ed) r5
    | 'E' :: r3 =>
      let (epos, r4) :=
        match r3 with
        | '+' :: r => (true, r)
        | '-' :: r => (false, r)
        | _ => (true, r3)
      let (ed, r5) := scanDigits r4
      if ed.isEmpty then .error "invalid decimal literal"
      else finishNum ip dot fp true epos (natOfDigits ed) r5
    | _ => finishNum ip dot fp false true 0 r2

/-- Whether a character can start an identifier. -/
def isNameStart (c : Char) : Bool := c.isAlpha || c = '_'

/-- Leading identifier characters of a character list. -/
def scanName : List Char → List Char × List Char
  | [] => ([], [])
  | c :: cs =>
    if c.isAlphanum || c = '_' then
      let (d, r) := scanName cs
      (c :: d, r)
    else ([], c :: cs)

/-- Scan a single-quoted string literal (escapes are not needed by any
calculator input). -/
def scanStr : List Char → Except String (String × List Char)
  | [] => .error "unterminated string"
  | c :: cs =>
    if c = '\'' then .ok ("", cs)
    else do
      let (s, r) ← scanStr cs
      .ok (String.singleton c ++ s, r)

/-- The tokenizer loop; fuel is the character count, every step consumes at
least one character. -/
def tokLoop : Nat → List Char → Except String (List Tok)
  | 0, _ => .error "fuel exhausted"
  | _ + 1, [] => .ok []
  | f + 1, c :: cs =>
    if c = ' ' ∨ c = '\t' ∨ c = '\n' ∨ c = '\r' then tokLoop f cs
    else if c.isDigit ∨ (c = '.' ∧ (cs.headD ' ').isDigit) then do
      let (t, r) ← scanNumber (c :: cs)
      let ts ← tokLoop f r
      .ok (t :: ts)
    else if isNameStart c then
      let (nm, r) := scanName (c :: cs)
      (do
        let ts ← tokLoop f r
        .ok (.nameT (String.mk nm) :: ts))
    else if c = '\'' then do
      let (s, r) ← scanStr cs
      let ts ← tokLoop f r
      .ok (.strT s :: ts)
    else if c = '*' then
      match cs with
      | '*' :: r => do
        let ts ← tokLoop f r
        .ok (.dstarT :: ts)
      | _ => do
        let ts ← tokLoop f cs
        .ok (.starT :: ts)
    else if c = '/' then
      match cs with
      | '/' :: r => do
        let ts ← tokLoop f r
        .ok (.dslashT :: ts)
      | _ => do
        let ts ← tokLoop f cs
        .ok (.slashT :: ts)
    else if c = '+' then do
      let ts ← tokLoop f cs
      .ok (.plusT :: ts)
    else if c = '-' then do
      let ts ← tokLoop f cs
      .ok (.minusT :: ts)
    else if c = '%' then do
      let ts ← tokLoop f cs
      .ok (.percentT :: ts)
    else if c = '(' then do
      let ts ← tokLoop f cs
      .ok (.lparT :: ts)
    else if c = ')' then do
      let ts ← tokLoop f cs
      .ok (.rparT :: ts)
    else if c = ',' then do
      let ts ← tokLoop f cs
      .ok (.commaT :: ts)
    else if c = '=' then do
      let ts ← tokLoop f cs
      .ok (.eqT :: ts)
    else if c = '.' then do
      let ts ← tokLoop f cs
      .ok (.dotT :: ts)
    else .error "invalid character"

/-- Tokenize a source string. -/
def tokenize (s : String) : Except String (List Tok) :=
  tokLoop (s.length + 1) s.toList

mutual
/-- Additive level of the Python expression grammar (left associative). -/
def pExpr : Nat → List Tok → Except String (Ast × List Tok)
  | 0, _ => .error "expression too deep"
  | f + 1, ts => do
    let (a, r) ← pTerm f ts
    pExprTail f a r

/-- Continuation of the additive level. -/
def pExprTail : Nat → Ast → List Tok → Except String (Ast × List Tok)
  | 0, _, _ => .error "expression too deep"
  | f + 1, acc, .plusT :: ts => do
    let (b, r) ← pTerm f ts
    pExprTail f (.binop .add acc b) r
  | f + 1, acc, .minusT :: ts => do
    let (b, r) ← pTerm f ts
    pExprTail f (.binop .sub acc b) r
  | _ + 1, acc, ts => .ok (acc, ts)

/-- Multiplicative level (left associative). -/
def pTerm : Nat → List Tok → Except String (Ast × List Tok)
  | 0, _ => .error "expression too deep"
  | f + 1, ts => do
    let (a, r) ← pFactor f ts
    pTermTail f a r

/-- Continuation of the multiplicative level. -/
def pTermTail : Nat → Ast → List Tok → Except String (Ast × List Tok)
  | 0, _, _ => .error "expression too deep"
  | f + 1, acc, .starT :: ts => do
    let (b, r) ← pFactor f ts
    pTermTail f (.binop .mul acc b) r
  | f + 1, acc, .slashT :: ts => do
    let (b, r) ← pFactor f ts
    pTermTail f (.binop .div acc b) r
  | f + 1, acc, .dslashT :: ts => do
    let (b, r) ← pFactor f ts
    pTermTail f (.binop .floorDiv acc b) r
  | f + 1, acc, .percentT :: ts => do
    let (b, r) ← pFactor f ts
    pTermTail f (.binop .modOp acc b) r
  | _ + 1, acc, ts => .ok (acc, ts)

/-- Unary level: as in Python, unary minus applies to a whole power, so
minus two ** two parses as the negation of the power. -/
def pFactor : Nat → List Tok → Except String (Ast × List Tok)
  | 0, _ => .error "expression too deep"
  | f + 1, .minusT :: ts => do
    let (a, r) ← pFactor f ts
    .ok (.unop .usub a, r)
  | f + 1, .plusT :: ts => do
    let (a, r) ← pFactor f ts
    .ok (.unop .uadd a, r)
  | f + 1, ts => pPower f ts

/-- Power level: right associative, the right operand is a unary factor. -/
def pPower : Nat → List Tok → Except String (Ast × List Tok)
  | 0, _ => .error "expression too deep"
  | f + 1, ts => do
    let (a, r) ← pAtomEx f ts
    match r with
    | .dstarT :: ts2 => do
      let (b, r2) ← pFactor f ts2
      .ok (.binop .pow a b, r2)
    | _ => .ok (a, r)

/-- A primary with its trailers (calls and attribute access). -/
def pAtomEx : Nat → List Tok → Except String (Ast × List Tok)
  | 0, _ => .error "expression too deep"
  | f + 1, ts => do
    let (a, r) ← pPrimary f ts
    pTrailers f a r

/-- Call and attribute trailers. -/
def pTrailers : Nat → Ast → List Tok → Except String (Ast × List Tok)
  | 0, _, _ => .error "expression too deep"
  | f + 1, a, .lparT :: ts => do
    let (args, kws, r) ← pArgs f ts
    pTrailers f (.call a args kws) r
  | f + 1, a, .dotT :: ts =>
    match ts with
    | .nameT s :: r => pTrailers f (.attr a s) r
    | _ => .error "invalid syntax"
  | _ + 1, a, ts => .ok (a, ts)

/-- Primary: literal, name (with the keyword constants), parenthesis. -/
def pPrimary : Nat → List Tok → Except String (Ast × List Tok)
  | 0, _ => .error "expression too deep"
  | _ + 1, .intT n :: ts => .ok (.const (.pint (n : ℤ)), ts)
  | _ + 1, .floatT q :: ts => .ok (.const (.pfloat q), ts)
  | _ + 1, .imagT :: ts => .ok (.const .pimag, ts)
  | _ + 1, .strT s :: ts => .ok (.const (.pstr s), ts)
  | _ + 1, .nameT s :: ts =>
    if s = "True" then .ok (.const (.pbool true), ts)
    else if s = "False" then .ok (.const (.pbool false), ts)
    else if s = "None" then .ok (.const .pnone, ts)
    else .ok (.name s, ts)
  | f + 1, .lparT :: ts => do
    let (a, r) ← pExpr f ts
    match r with
    | .rparT :: r2 => .ok (a, r2)
    | _ => .error "invalid syntax"
  | _ + 1, _ => .error "invalid syntax"

/-- An argument list after the opening parenthesis, up to and past the
closing one. -/
def pArgs : Nat → List Tok → Except String (AstL × KwL × List Tok)
  | 0, _ => .error "expression too deep"
  | _ + 1, .rparT :: ts => .ok (.anil, .knil, ts)
  | f + 1, ts => pArgList f false ts

/-- Comma-separated arguments; a keyword argument is a name, an equals sign
and an expression, and a positional argument after a keyword one is the
syntax error CPython raises. -/
def pArgList : Nat → Bool → List Tok → Except String (AstL × KwL × List Tok)
  | 0, _, _ => .error "expression too deep"
  | f + 1, seenKw, ts =>
    match ts with
    | .nameT s :: .eqT :: ts2 => do
      let (a, r) ← pExpr f ts2
      match r with
      | .commaT :: r2 => do
        let (as2, ks, r3) ← pArgList f true r2
        .ok (as2, .kcons s a ks, r3)
      | .rparT :: r2 => .ok (.anil, .kcons s a .knil, r2)
      | _ => .error "invalid syntax"
    | _ =>
      if seenKw then .error "positional argument follows keyword argument"
      else do
        let (a, r) ← pExpr f ts
        match r with
        | .commaT :: r2 => do
          let (as2, ks, r3) ← pArgList f seenKw r2
          .ok (.acons a as2, ks, r3)
        | .rparT :: r2 => .ok (.acons a .anil, .knil, r2)
        | _ => .error "invalid syntax"
end

/-- ast.parse(expr, mode eval) for the supported fragment: tokenize, parse
a full expression, reject leftover tokens. -/
def parsePy (s : String) : Except String Ast := do
  let ts ← tokenize s
  let (a, r) ← pExpr (10 * ts.length + 30) ts
  match r with
  | [] => .ok a
  | _ => .error "invalid syntax"

/-- Replacement of every occurrence of a character (the str.replace calls of
the evaluators all have single-character patterns). -/
def replaceCh (c : Char) (r : List Char) : List Char -> List Char
  | [] => []
  | x :: xs => if x = c then r ++ replaceCh c r xs else x :: replaceCh c r xs

/-- Whether the string is empty or whitespace only: the test
not expr or expr.strip() equal to the empty string. -/
def isBlank (s : String) : Bool := s.toList.all (fun c => c.isWhitespace)

/-- The symbol cleanup of evaluator A before parsing. -/
def normalizeA (s : String) : String :=
  String.mk (replaceCh '^' ['*', '*']
    (replaceCh '÷' ['/'] (replaceCh '×' ['*'] s.toList)))

/-- The symbol cleanup of evaluator B (also maps the unicode minus). -/
def normalizeB (s : String) : String :=
  String.mk (replaceCh '−' ['-'] (replaceCh '^' ['*', '*']
    (replaceCh '÷' ['/'] (replaceCh '×' ['*'] s.toList))))

/-- The symbol cleanup of evaluator C. -/
def normalizeC (s : String) : String :=
  String.mk (replaceCh '÷' ['/']
    (replaceCh '×' ['*'] (replaceCh '^' ['*', '*'] s.toList)))

/-- safe_eval of evaluator A (scientific Calculator.py).  The ok branch is
the returned value (the empty input returns the empty string, a numeric
result is returned after the near-integer snap); the error branch is an
exception raised to the caller: SafeEvalError for parse failures and
rejected constructs, a raw interpreter exception where the source does not
catch it. -/
def safeEvalA (P : Prims) (expr : String) : Except PyExc Value :=
  if isBlank expr then .ok (.str "")
  else
    match parsePy (normalizeA expr) with
    | .error _ => .error (.safeEvalError "Parse error")
    | .ok a =>
      match evalA P a with
      | .error e => .error e
      | .ok v => .ok (snapA v)

/-- safe_eval of evaluator B (scientific Calculator10.py): raises
SafeEvalError even on empty input, otherwise like evaluator A over the
overlaid table. -/
def safeEvalB (P : Prims) (extra : List (String × Value)) (expr : String) :
    Except PyExc Value :=
  if isBlank expr then .error (.safeEvalError "Empty expression")
  else
    match parsePy (normalizeB expr) with
    | .error _ => .error (.safeEvalError "Syntax error")
    | .ok a =>
      match evalB P extra a with
      | .error e => .error e
      | .ok v => .ok (snapB v)

/-- What safe_eval of evaluator C returns: a value, or one of its tag
strings (the empty string for empty input, Syntax Error, Math Error). -/
inductive CalcRet
  | retNum (v : Value)
  | retStr (s : String)
deriving DecidableEq, Repr

/-- safe_eval of evaluator C (scientific Calculator9.py): never raises; a
parse failure returns the string Syntax Error, any exception out of the
evaluation returns the string Math Error, and the near-integer snap uses
int() truncation. -/
def safeEvalC (P : Prims) (expr : String) : CalcRet :=
  if isBlank expr then .retStr ""
  else
    match parsePy (normalizeC expr) with
    | .error _ => .retStr "Syntax Error"
    | .ok a =>
      match evalC P a with
      | .error _ => .retStr "Math Error"
      | .ok v => .retNum (snapC v)

end PyCalc

namespace PyCalc

/-- Pure integer arithmetic expressions: the fragment of well-formed
arithmetic over numeric literals in which Python arithmetic is exact (sum,
difference, product, power with nonnegative exponent, floor division and
modulo, unary sign). -/
inductive PA
  | lit (n : ℕ)
  | neg (a : PA)
  | pos (a : PA)
  | add (a b : PA)
  | sub (a b : PA)
  | mul (a b : PA)
  | pow (a b : PA)
  | fdiv (a b : PA)
  | fmod (a b : PA)

/-- The embedding of a pure arithmetic expression into the Python AST. -/
def PA.toAst : PA → Ast
  | .lit n => .const (.pint (n : ℤ))
  | .neg a => .unop .usub a.toAst
  | .pos a => .unop .uadd a.toAst
  | .add a b => .binop .add a.toAst b.toAst
  | .sub a b => .binop .sub a.toAst b.toAst
  | .mul a b => .binop .mul a.toAst b.toAst
  | .pow a b => .binop .pow a.toAst b.toAst
  | .fdiv a b => .binop .floorDiv a.toAst b.toAst
  | .fmod a b => .binop .modOp a.toAst b.toAst

/-- The standard arithmetic denotation of a pure expression: none where the
mathematical value is undefined (division or modulo by zero, negative
exponent); floor division and modulo in the floor convention the Python
integer operators use. -/
def PA.denote : PA → Option ℤ
  | .lit n => some (n : ℤ)
  | .neg a => (PA.denote a).map (fun x => -x)
  | .pos a => PA.denote a
  | .add a b => do
    let x ← PA.denote a
    let y ← PA.denote b
    some (x + y)
  | .sub a b => do
    let x ← PA.denote a
    let y ← PA.denote b
    some (x - y)
  | .mul a b => do
    let x ← PA.denote a
    let y ← PA.denote b
    some (x * y)
  | .pow a b => do
    let x ← PA.denote a
    let y ← PA.denote b
    if 0 ≤ y then some (x ^ y.toNat) else none
  | .fdiv a b => do
    let x ← PA.denote a
    let y ← PA.denote b
    if y = 0 then none else some (Int.fdiv x y)
  | .fmod a b => do
    let x ← PA.denote a
    let y ← PA.denote b
    if y = 0 then none else some (Int.fmod x y)

/-- The textual rendering relation of a returned value: t renders v when t
is nonempty and parses back (through the evaluator A entry point pipeline)
to a literal with exactly the value v, negative values through the leading
unary minus.  For an int this is its decimal numeral; for a float it is
any literal whose binary64 value is exactly the magnitude of q, which the
shortest repr that Python str() produces satisfies by the float repr
round-trip guarantee.  Only the
real numeric results that the Result type of the specification admits have
renderings. -/
def RendersTo (v : Value) (t : String) : Prop :=
  isBlank t = false ∧
  match v with
  | .int n =>
    if 0 ≤ n then parsePy (normalizeA t) = .ok (.const (.pint n))
    else parsePy (normalizeA t) = .ok (.unop .usub (.const (.pint (-n))))
  | .float q =>
    if 0 ≤ q then parsePy (normalizeA t) = .ok (.const (.pfloat q))
    else parsePy (normalizeA t) = .ok (.unop .usub (.const (.pfloat (-q))))
  | _ => False

/-- A concrete library interpretation used by witnesses: the base two
logarithm of 8 is exactly 3 there (the true double is within 1e-12 of 3)
and the natural log of 100 is a stand-in value away from every integer. -/
def Pw : Prims := { logb := fun _ _ => 3, ln := fun _ => 46051 / 10000 }

end PyCalc

namespace PyCalc

/-- A rational within 1e-12 of an integer rounds to that integer under
round-to-nearest (ties cannot occur at that distance). -/
theorem rne_near (q : ℚ) (n : ℤ) (h : |q - (n : ℚ)| < 1 / 1000000000000) :
    rne q = n := by
  rw [abs_lt] at h
  unfold rne
  rcases le_or_lt (n : ℚ) q with hle | hlt
  · have hf : ⌊q⌋ = n := by
      rw [Int.floor_eq_iff]
      exact ⟨hle, by linarith [h.2]⟩
    simp only [hf]
    rw [if_pos (by linarith [h.2] : q - (n : ℚ) < 1 / 2)]
  · have hf : ⌊q⌋ = n - 1 := by
      rw [Int.floor_eq_iff]
      constructor
      · push_cast
        linarith [h.1]
      · push_cast
        linarith
    simp only [hf]
    rw [if_neg (by push_cast; linarith [h.1] : ¬ (q - ((n - 1 : ℤ) : ℚ) < 1 / 2))]
    rw [if_pos (by push_cast; linarith [h.1] : (1 : ℚ) / 2 < q - ((n - 1 : ℤ) : ℚ))]
    omega

/-- The snap of evaluator A maps a float within 1e-12 of an integer to that
integer. -/
theorem snapA_near (q : ℚ) (n : ℤ) (h : |q - (n : ℚ)| < 1 / 1000000000000) :
    snapA (.float q) = .int n := by
  have hr := rne_near q n h
  simp only [snapA, hr]
  exact if_pos h

/-- The snap of evaluator A is idempotent. -/
theorem snapA_snapA (v : Value) : snapA (snapA v) = snapA v := by
  cases v with
  | float q =>
    by_cases hc : |q - (rne q : ℚ)| < 1 / 1000000000000
    · simp only [snapA, if_pos hc]
    · simp only [snapA, if_neg hc]
  | int n => rfl
  | bool b => rfl
  | str s => rfl
  | pynone => rfl
  | complex => rfl
  | pyfun f => rfl

/-- A value safe_eval of evaluator A returns is a fixed point of the snap. -/
theorem safeEvalA_ok_snap (P : Prims) (s : String) (v : Value)
    (h : safeEvalA P s = .ok v) : snapA v = v := by
  unfold safeEvalA at h
  split at h
  · cases h
    rfl
  · split at h
    · cases h
    · split at h
      · cases h
      · cases h
        exact snapA_snapA _

end PyCalc

namespace PyCalc

/-- Claim C1 (amended): for every input string the evaluator C entry point
returns one of its tagged outcomes (empty string, a value, Syntax Error,
Math Error) and never raises; the evaluator A entry point instead signals
failures by raising exceptions, propagating the raw ZeroDivisionError of
the interpreter on division by zero. -/
theorem c1_tagged_outcomes :
    (∀ (P : Prims) (s : String),
      safeEvalC P s = .retStr "" ∨ safeEvalC P s = .retStr "Syntax Error" ∨
      safeEvalC P s = .retStr "Math Error" ∨ ∃ v, safeEvalC P s = .retNum v) ∧
    (∀ P : Prims,
      safeEvalA P "5/0" = .error (.zeroDivisionError "division by zero")) := by
  constructor
  · intro P s
    unfold safeEvalC
    split
    · exact Or.inl rfl
    · split
      · exact Or.inr (Or.inl rfl)
      · split
        · exact Or.inr (Or.inr (Or.inl rfl))
        · exact Or.inr (Or.inr (Or.inr ⟨_, rfl⟩))
  · intro P
    rfl

/-- Claim C1, counterexample: the evaluator A entry point raises exceptions
into the calling process instead of returning a tagged outcome: a raw
ZeroDivisionError on division by zero, the typed SafeEvalError on a parse
failure (the error branch of the embedding is a raised exception). -/
theorem c1_counterexample :
    safeEvalA P0 "5/0" = .error (.zeroDivisionError "division by zero") ∧
    safeEvalA P0 "(" = .error (.safeEvalError "Parse error") :=
  ⟨rfl, rfl⟩

/-- Claim C3 (amended): division and modulo by zero never produce an
Infinity success, but no distinct DivisionByZero error kind exists either:
evaluator A propagates the raw ZeroDivisionError uncaught, evaluator B
wraps its text into the generic SafeEvalError, evaluator C returns the
catch-all Math Error string. -/
theorem c3_div_by_zero :
    (∀ (P : Prims) (l r : Ast) (n : ℤ), evalA P l = .ok (.int n) →
      evalA P r = .ok (.int 0) →
      evalA P (.binop .div l r) = .error (.zeroDivisionError "division by zero") ∧
      evalA P (.binop .modOp l r) =
        .error (.zeroDivisionError "integer modulo by zero")) ∧
    (∀ (P : Prims) (extra : List (String × Value)) (l r : Ast) (n : ℤ),
      evalB P extra l = .ok (.int n) → evalB P extra r = .ok (.int 0) →
      evalB P extra (.binop .div l r) =
        .error (.safeEvalError "division by zero")) ∧
    (∀ P : Prims, safeEvalC P "5/0" = .retStr "Math Error") := by
  refine ⟨?_, ?_, fun P => rfl⟩
  · intro P l r n hl hr
    constructor
    · simp only [evalA]
      rw [hl, hr]
      rfl
    · simp only [evalA]
      rw [hl, hr]
      rfl
  · intro P extra l r n hl hr
    simp only [evalB]
    rw [hl, hr]
    rfl

/-- Claim C3, counterexample: on the inputs of the claim evaluator A does
not return a DivisionByZero kind; it propagates the raw ZeroDivisionError
of the interpreter uncaught to the caller, and evaluator C collapses the
case into its catch-all Math Error string. -/
theorem c3_counterexample :
    safeEvalA P0 "5/0" = .error (.zeroDivisionError "division by zero") ∧
    safeEvalA P0 "0/0" = .error (.zeroDivisionError "division by zero") ∧
    safeEvalA P0 "5%0" = .error (.zeroDivisionError "integer modulo by zero") ∧
    safeEvalC P0 "5/0" = .retStr "Math Error" :=
  ⟨rfl, rfl, rfl, rfl⟩

/-- Claim C3 witness: the general division by zero behavior applied to the
literal operands five and zero. -/
theorem c3_div_by_zero_witness :
    evalA P0 (.binop .div (.const (.pint 5)) (.const (.pint 0))) =
      .error (.zeroDivisionError "division by zero") ∧
    evalB P0 [] (.binop .div (.const (.pint 5)) (.const (.pint 0))) =
      .error (.safeEvalError "division by zero") :=
  ⟨(c3_div_by_zero.1 P0 (.const (.pint 5)) (.const (.pint 0)) 5 rfl rfl).1,
    c3_div_by_zero.2.1 P0 [] (.const (.pint 5)) (.const (.pint 0)) 5 rfl rfl⟩

/-- Claim C5 (amended): on empty or whitespace-only input evaluator A
returns the empty string and evaluator C returns its empty tag, a
distinguished non-error result different from the number zero; evaluator B
instead raises SafeEvalError Empty expression. -/
theorem c5_empty_input (P : Prims) (s : String) (h : isBlank s = true) :
    safeEvalA P s = .ok (.str "") ∧
    (∀ extra, safeEvalB P extra s = .error (.safeEvalError "Empty expression")) ∧
    safeEvalC P s = .retStr "" ∧ Value.str "" ≠ Value.int 0 := by
  refine ⟨?_, fun extra => ?_, ?_, by simp⟩
  · unfold safeEvalA
    rw [if_pos h]
  · unfold safeEvalB
    rw [if_pos h]
  · unfold safeEvalC
    rw [if_pos h]

/-- Claim C5, counterexample: evaluator B raises an error on empty and on
whitespace-only input instead of returning a distinguished empty success. -/
theorem c5_counterexample :
    safeEvalB P0 [] "" = .error (.safeEvalError "Empty expression") ∧
    safeEvalB P0 [] "   " = .error (.safeEvalError "Empty expression") :=
  ⟨rfl, rfl⟩

/-- Claim C5 witness: the empty-input behavior at a single blank. -/
theorem c5_empty_input_witness :
    safeEvalA P0 " " = .ok (.str "") ∧ safeEvalC P0 " " = .retStr "" :=
  ⟨(c5_empty_input P0 " " rfl).1, (c5_empty_input P0 " " rfl).2.2.1⟩

/-- Claim C6 (amended): evaluators A and B snap a float within 1e-12 of an
integer (nearest, ties to even) to that integer; evaluator C snaps only
floats within 1e-12 of their truncation toward zero, so values just below
an integer stay unsnapped; and the sum of the literals 0.1 and 0.2 is the
double 0.30000000000000004440892098500626, which integer snapping does not
touch. -/
theorem c6_snapping :
    (∀ (q : ℚ) (n : ℤ), |q - (n : ℚ)| < 1 / 1000000000000 →
      snapA (.float q) = .int n ∧ snapB (.float q) = .int n) ∧
    (∀ q : ℚ, ¬ (|q - (truncQ q : ℚ)| < 1 / 1000000000000) →
      snapC (.float q) = .float q) ∧
    (∀ P : Prims,
      safeEvalA P "0.1 + 0.2" = .ok (.float (1351079888211149 / 4503599627370496))) := by
  refine ⟨?_, ?_, fun P => rfl⟩
  · intro q n h
    refine ⟨snapA_near q n h, ?_⟩
    have hsame : snapB (.float q) = snapA (.float q) := rfl
    rw [hsame]
    exact snapA_near q n h
  · intro q h
    simp only [snapC, if_neg h]

/-- Claim C6, counterexample: the literal 2.9999999999999996 converts to a
double within 1e-12 of the integer 3, yet evaluator C returns it unsnapped
(its truncation-based test misses values below the integer); and the input
0.1 + 0.2 evaluates to the double 0.30000000000000004440892098500626, not
to three tenths, so its display is not the claimed exact 0.3. -/
theorem c6_counterexample :
    safeEvalC P0 "2.9999999999999996" =
      .retNum (.float (6755399441055743 / 2251799813685248)) ∧
    |(6755399441055743 / 2251799813685248 : ℚ) - 3| < 1 / 1000000000000 ∧
    safeEvalC P0 "2.9999999999999996" ≠ .retNum (.int 3) ∧
    safeEvalA P0 "0.1 + 0.2" = .ok (.float (1351079888211149 / 4503599627370496)) ∧
    (1351079888211149 / 4503599627370496 : ℚ) ≠ 3 / 10 := by
  refine ⟨rfl, by decide, ?_, rfl, by decide⟩
  have hval : safeEvalC P0 "2.9999999999999996" =
      .retNum (.float (6755399441055743 / 2251799813685248)) := rfl
  rw [hval]
  intro hcontra
  cases hcontra

/-- Claim C6 witness: the snapping behavior at the double just below 3. -/
theorem c6_snapping_witness :
    snapA (.float (6755399441055743 / 2251799813685248)) = .int 3 ∧
    snapC (.float (6755399441055743 / 2251799813685248)) =
      .float (6755399441055743 / 2251799813685248) :=
  ⟨(c6_snapping.1 _ 3 (by decide)).1, c6_snapping.2.1 _ (by decide)⟩

/-- Claim C9 (amended): evaluation can yield a complex number as a success
value: a negative float base under a non-integral float exponent returns
the complex result of the power operator, the snap passes it through, and
the entry point of evaluator A returns it as a success; no conversion of
non-real results to an error kind exists. -/
theorem c9_complex_success :
    (∀ (P : Prims) (a b : Ast) (x y : ℚ), evalA P a = .ok (.float x) →
      evalA P b = .ok (.float y) → x < 0 → isIntQ y = false →
      evalA P (.binop .pow a b) = .ok .complex) ∧
    (∀ P : Prims, safeEvalA P "(-1)**0.5" = .ok .complex ∧ snapA .complex = .complex) := by
  refine ⟨?_, fun P => ⟨rfl, rfl⟩⟩
  intro P a b x y ha hb hx hy
  simp only [evalA]
  rw [ha, hb]
  show applyBin P .pow (.float x) (.float y) = .ok .complex
  simp only [applyBin, Value.toI, Value.toF, floatArith, if_pos hx, hy]
  rfl

/-- Claim C9, counterexample: minus one to the power 0.5 succeeds with a
complex value at the entry points of evaluators A and C, refuting the
invariant that evaluation never yields a complex number as a success. -/
theorem c9_counterexample :
    safeEvalA P0 "(-1)**0.5" = .ok .complex ∧
    safeEvalC P0 "(-1)**0.5" = .retNum .complex :=
  ⟨rfl, rfl⟩

/-- Claim C9 witness: the complex-producing power rule at the literal
operands minus one and one half. -/
theorem c9_complex_success_witness :
    evalA P0 (.binop .pow (.const (.pfloat (-1))) (.const (.pfloat (1 / 2)))) =
      .ok .complex :=
  c9_complex_success.1 P0 (.const (.pfloat (-1))) (.const (.pfloat (1 / 2)))
    (-1) (1 / 2) rfl rfl (by norm_num) rfl

end PyCalc

namespace PyCalc

/-- Claim C2: name resolution is closed over the allow-list.  In evaluator
A an identifier or a call whose name is not in SAFE_NAMES yields the
name-not-allowed or function-not-allowed SafeEvalError, the call case
before any argument is evaluated (the result is the same for every
argument list); a call whose func is not a plain name is rejected as an
unsafe call; and the node shapes outside the grammar (attribute access,
subscripting, list literals) are hard errors.  Evaluator C rejects the
same lookups with its ValueError (surfacing as Math Error at the entry
point). -/
theorem c2_allowlist_closure (P : Prims) (nm : String)
    (hA : lookupA nm = none) (hC : lookupC nm = none) :
    evalA P (.name nm) =
      .error (.safeEvalError ("Name '" ++ nm ++ "' not allowed")) ∧
    (∀ args kws, evalA P (.call (.name nm) args kws) =
      .error (.safeEvalError ("Function '" ++ nm ++ "' not allowed"))) ∧
    (∀ (b : Ast) (fld : String) (args : AstL) (kws : KwL) (ix : Ast) (xs : AstL),
      evalA P (.call (.attr b fld) args kws) =
        .error (.safeEvalError "Unsafe function call") ∧
      evalA P (.attr b fld) =
        .error (.safeEvalError "Unsupported expression element") ∧
      evalA P (.subscript b ix) = .error (.safeEvalError "Subscript not allowed") ∧
      evalA P (.listLit xs) =
        .error (.safeEvalError "Unsupported expression element")) ∧
    evalC P (.name nm) = .error (.valueError ("Name " ++ nm ++ " not allowed")) ∧
    (∀ args kws, ∃ e, evalC P (.call (.name nm) args kws) = .error e) := by
  refine ⟨?_, ?_, fun b fld args kws ix xs => ⟨rfl, rfl, rfl, rfl⟩, ?_, ?_⟩
  · simp only [evalA, hA]
  · intro args kws
    simp only [evalA, hA]
  · simp only [evalC, hC]
  · intro args kws
    cases hargs : evalCL P args with
    | error e =>
      refine ⟨e, ?_⟩
      simp only [evalC]
      rw [hargs]
      rfl
    | ok vs =>
      refine ⟨.valueError ("Function " ++ nm ++ " not allowed"), ?_⟩
      simp only [evalC]
      rw [hargs, hC]
      rfl

/-- Claim C2 witness: the dunder import name resolves nowhere; calling it
is rejected before its arguments run (an argument dividing by zero is
never evaluated: the result is the function-not-allowed error, not a
ZeroDivisionError), and entry point evaluations of the claimed attack
strings are rejected without executing anything. -/
theorem c2_allowlist_closure_witness :
    lookupA "__import__" = none ∧
    evalA P0 (.call (.name "__import__")
      (.acons (.binop .div (.const (.pint 1)) (.const (.pint 0))) .anil) .knil) =
      .error (.safeEvalError "Function '__import__' not allowed") ∧
    safeEvalA P0 "__import__('os')" =
      .error (.safeEvalError "Function '__import__' not allowed") ∧
    safeEvalA P0 "os.system('x')" = .error (.safeEvalError "Unsafe function call") := by
  refine ⟨rfl, ?_, rfl, rfl⟩
  exact (c2_allowlist_closure P0 "__import__" rfl rfl).2.1 _ _

/-- Claim C4 (amended): out-of-domain calls of the allow-listed functions
never crash the evaluation or return a complex or NaN success; they raise
the domain ValueError of the math library, which evaluator A wraps into
the one generic SafeEvalError kind carrying only the message text (no
offending value, no kind distinct from any other failure). -/
theorem c4_domain_errors :
    (∀ (P : Prims) (a : Ast) (q : ℚ), evalA P a = .ok (.float q) → q < 0 →
      evalA P (.call (.name "sqrt") (.acons a .anil) .knil) =
        .error (.safeEvalError "math domain error") ∧
      evalA P (.call (.name "ln") (.acons a .anil) .knil) =
        .error (.safeEvalError "math domain error")) ∧
    (∀ (P : Prims) (a : Ast) (n : ℤ), evalA P a = .ok (.int n) → n < 0 →
      evalA P (.call (.name "factorial") (.acons a .anil) .knil) =
        .error (.safeEvalError "factorial() not defined for negative values")) ∧
    (∀ (P : Prims) (a : Ast) (q : ℚ), evalA P a = .ok (.float q) →
      q < -1 ∨ 1 < q →
      evalA P (.call (.name "asin") (.acons a .anil) .knil) =
        .error (.safeEvalError "math domain error")) := by
  refine ⟨?_, ?_, ?_⟩
  · intro P a q ha hq
    constructor
    · simp only [evalA, evalAL, evalAK]
      rw [ha]
      show wrapA (if q < 0 then mde else .ok (.float (P.sqrt q))) =
        .error (.safeEvalError "math domain error")
      rw [if_pos hq]
      rfl
    · simp only [evalA, evalAL, evalAK]
      rw [ha]
      show wrapA (if q ≤ 0 then mde else .ok (.float (P.ln q))) =
        .error (.safeEvalError "math domain error")
      rw [if_pos (le_of_lt hq)]
      rfl
  · intro P a n ha hn
    simp only [evalA, evalAL, evalAK]
    rw [ha]
    show wrapA (if n < 0 then
        .error (.valueError "factorial() not defined for negative values")
      else .ok (.int (Nat.factorial n.toNat))) =
      .error (.safeEvalError "factorial() not defined for negative values")
    rw [if_pos hn]
    rfl
  · intro P a q ha hq
    simp only [evalA, evalAL, evalAK]
    rw [ha]
    show wrapA (if q < -1 ∨ 1 < q then mde else .ok (.float (P.asin q))) =
      .error (.safeEvalError "math domain error")
    rw [if_pos hq]
    rfl

/-- Claim C4, counterexample: each cited domain violation produces the one
generic SafeEvalError with the message of the underlying library
exception, the exact same exception kind an unknown name produces; no
distinct DomainError kind carrying the offending value exists (evaluator B
even prefixes the same text with Function error). -/
theorem c4_counterexample :
    safeEvalA P0 "sqrt(-1)" = .error (.safeEvalError "math domain error") ∧
    safeEvalA P0 "ln(-5)" = .error (.safeEvalError "math domain error") ∧
    safeEvalA P0 "factorial(-3)" =
      .error (.safeEvalError "factorial() not defined for negative values") ∧
    safeEvalA P0 "asin(2)" = .error (.safeEvalError "math domain error") ∧
    safeEvalB P0 [] "sqrt(-1)" =
      .error (.safeEvalError "Function error: math domain error") ∧
    safeEvalA P0 "nosuch(1)" = .error (.safeEvalError "Function 'nosuch' not allowed") :=
  ⟨rfl, rfl, rfl, rfl, rfl, rfl⟩

/-- Claim C4 witness: the domain rules applied at the literal arguments of
the claim. -/
theorem c4_domain_errors_witness :
    evalA P0 (.call (.name "sqrt") (.acons (.const (.pfloat (-1))) .anil) .knil) =
      .error (.safeEvalError "math domain error") ∧
    evalA P0 (.call (.name "factorial")
      (.acons (.unop .usub (.const (.pint 3))) .anil) .knil) =
      .error (.safeEvalError "factorial() not defined for negative values") ∧
    evalA P0 (.call (.name "asin") (.acons (.const (.pfloat 2)) .anil) .knil) =
      .error (.safeEvalError "math domain error") :=
  ⟨(c4_domain_errors.1 P0 (.const (.pfloat (-1))) (-1) rfl (by norm_num)).1,
    c4_domain_errors.2.1 P0 (.unop .usub (.const (.pint 3))) (-3) rfl (by norm_num),
    c4_domain_errors.2.2 P0 (.const (.pfloat 2)) 2 rfl (Or.inr (by norm_num))⟩

/-- Claim C7: in evaluator A the log entry of SAFE_NAMES accepts the
optional keyword base and defaults to the natural logarithm: log(8,
base=2) invokes the two argument logarithm and, the true value being
within 1e-12 of 3, the snap returns the integer 3; log(100) invokes the
one argument natural logarithm primitive (not the base-10 one), whatever
value the library interpretation assigns to it. -/
theorem c7_log_keyword_base (P : Prims)
    (h : |P.logb 8 2 - 3| < 1 / 1000000000000) :
    safeEvalA P "log(8, base=2)" = .ok (.int 3) ∧
    safeEvalA P "log(100)" = .ok (snapA (.float (P.ln 100))) := by
  constructor
  · have key : safeEvalA P "log(8, base=2)" = .ok (snapA (.float (P.logb 8 2))) := rfl
    rw [key, snapA_near (P.logb 8 2) 3 (by push_cast; exact h)]
  · rfl

/-- Claim C7 witness: the keyword-base behavior under the concrete witness
interpretation, where the base two logarithm of 8 is exactly 3 and the
natural log of 100 is the stand-in 4.6051. -/
theorem c7_log_keyword_base_witness :
    |Pw.logb 8 2 - 3| < 1 / 1000000000000 ∧
    safeEvalA Pw "log(8, base=2)" = .ok (.int 3) ∧
    safeEvalA Pw "log(100)" = .ok (.float (46051 / 10000)) := by
  refine ⟨by decide, (c7_log_keyword_base Pw (by decide)).1, ?_⟩
  have h2 := (c7_log_keyword_base Pw (by decide)).2
  rw [h2]
  rfl

/-- Claim C8 (amended): arithmetic over numeric literals follows the
standard precedence with right-associative power; over the integer
fragment (sum, difference, product, nonnegative power, floor division and
modulo, unary sign) evaluator A computes exactly the standard integer
denotation; and unary minus binds looser than power, the Python
convention: minus 2 ^ 2 evaluates to minus 4. -/
theorem c8_int_arithmetic :
    (∀ (P : Prims) (t : PA) (z : ℤ), PA.denote t = some z →
      evalA P (PA.toAst t) = .ok (.int z)) ∧
    (∀ P : Prims, safeEvalA P "2 + 3 * 4" = .ok (.int 14)) ∧
    (∀ P : Prims, safeEvalA P "2 ^ 10" = .ok (.int 1024)) ∧
    (∀ P : Prims, safeEvalA P "2 ** 3 ** 2" = .ok (.int 512)) ∧
    (∀ P : Prims, safeEvalA P "-2 ^ 2" = .ok (.int (-4))) := by
  refine ⟨?_, fun P => rfl, fun P => rfl, fun P => rfl, fun P => rfl⟩
  intro P t
  induction t with
  | lit n =>
    intro z hz
    cases hz
    rfl
  | neg a ih =>
    intro z hz
    simp only [PA.denote] at hz
    cases ha : PA.denote a with
    | none => simp [ha] at hz
    | some x =>
      simp [ha] at hz
      simp only [PA.toAst, evalA]
      rw [ih x ha]
      show applyUn .usub (.int x) = .ok (.int z)
      simp [applyUn, Value.toI, hz]
  | pos a ih =>
    intro z hz
    simp only [PA.denote] at hz
    simp only [PA.toAst, evalA]
    rw [ih z hz]
    rfl
  | add a b iha ihb =>
    intro z hz
    simp only [PA.denote] at hz
    cases ha : PA.denote a with
    | none => simp [ha] at hz
    | some x =>
      cases hb : PA.denote b with
      | none => simp [ha, hb] at hz
      | some y =>
        simp [ha, hb] at hz
        simp only [PA.toAst, evalA]
        rw [iha x ha, ihb y hb]
        show applyBin P .add (.int x) (.int y) = .ok (.int z)
        simp [applyBin, Value.toI, intArith, hz]
  | sub a b iha ihb =>
    intro z hz
    simp only [PA.denote] at hz
    cases ha : PA.denote a with
    | none => simp [ha] at hz
    | some x =>
      cases hb : PA.denote b with
      | none => simp [ha, hb] at hz
      | some y =>
        simp [ha, hb] at hz
        simp only [PA.toAst, evalA]
        rw [iha x ha, ihb y hb]
        show applyBin P .sub (.int x) (.int y) = .ok (.int z)
        simp [applyBin, Value.toI, intArith, hz]
  | mul a b iha ihb =>
    intro z hz
    simp only [PA.denote] at hz
    cases ha : PA.denote a with
    | none => simp [ha] at hz
    | some x =>
      cases hb : PA.denote b with
      | none => simp [ha, hb] at hz
      | some y =>
        simp [ha, hb] at hz
        simp only [PA.toAst, evalA]
        rw [iha x ha, ihb y hb]
        show applyBin P .mul (.int x) (.int y) = .ok (.int z)
        simp [applyBin, Value.toI, intArith, hz]
  | pow a b iha ihb =>
    intro z hz
    simp only [PA.denote] at hz
    cases ha : PA.denote a with
    | none => simp [ha] at hz
    | some x =>
      cases hb : PA.denote b with
      | none => simp [ha, hb] at hz
      | some y =>
        by_cases hy : 0 ≤ y
        · simp [ha, hb, hy] at hz
          simp only [PA.toAst, evalA]
          rw [iha x ha, ihb y hb]
          show applyBin P .pow (.int x) (.int y) = .ok (.int z)
          simp [applyBin, Value.toI, intArith, if_pos hy, hz]
        · simp [ha, hb, hy] at hz
  | fdiv a b iha ihb =>
    intro z hz
    simp only [PA.denote] at hz
    cases ha : PA.denote a with
    | none => simp [ha] at hz
    | some x =>
      cases hb : PA.denote b with
      | none => simp [ha, hb] at hz
      | some y =>
        by_cases hy : y = 0
        · simp [ha, hb, hy] at hz
        · simp [ha, hb, hy] at hz
          simp only [PA.toAst, evalA]
          rw [iha x ha, ihb y hb]
          show applyBin P .floorDiv (.int x) (.int y) = .ok (.int z)
          simp [applyBin, Value.toI, intArith, if_neg hy, hz]
  | fmod a b iha ihb =>
    intro z hz
    simp only [PA.denote] at hz
    cases ha : PA.denote a with
    | none => simp [ha] at hz
    | some x =>
      cases hb : PA.denote b with
      | none => simp [ha, hb] at hz
      | some y =>
        by_cases hy : y = 0
        · simp [ha, hb, hy] at hz
        · simp [ha, hb, hy] at hz
          simp only [PA.toAst, evalA]
          rw [iha x ha, ihb y hb]
          show applyBin P .modOp (.int x) (.int y) = .ok (.int z)
          simp [applyBin, Value.toI, intArith, if_neg hy, hz]

/-- Claim C8, counterexample: the convention of the claim (unary minus
binding tighter than power, so minus 2 ^ 2 would be 4) is not the one the
code implements: the caret normalizes to the Python power operator, which
binds tighter than unary minus, and the input evaluates to minus 4. -/
theorem c8_counterexample :
    safeEvalA P0 "-2 ^ 2" = .ok (.int (-4)) ∧
    safeEvalA P0 "-2 ^ 2" ≠ .ok (.int 4) := by
  refine ⟨rfl, ?_⟩
  have h : safeEvalA P0 "-2 ^ 2" = .ok (.int (-4)) := rfl
  rw [h]
  intro hcontra
  cases hcontra

/-- Claim C8 witness: the integer-fragment correctness applied to the
expression 2 + 3 * 4. -/
theorem c8_int_arithmetic_witness :
    PA.denote (PA.add (PA.lit 2) (PA.mul (PA.lit 3) (PA.lit 4))) = some 14 ∧
    evalA P0 (PA.toAst (PA.add (PA.lit 2) (PA.mul (PA.lit 3) (PA.lit 4)))) =
      .ok (.int 14) :=
  ⟨rfl, c8_int_arithmetic.1 P0 (PA.add (PA.lit 2) (PA.mul (PA.lit 3) (PA.lit 4))) 14 rfl⟩

/-- Claim C10: round-trip idempotence over the real numeric results the
Result type of the specification admits: when evaluator A succeeds with an
int or float value, re-evaluating any textual rendering of that value (its
decimal numeral for an int; for a float any literal converting to exactly
the same double, which the shortest repr of str() is guaranteed to
satisfy) succeeds with the very same value, because a returned value is
already a fixed point of the near-integer snap. -/
theorem c10_round_trip (P : Prims) (s t : String) (v : Value)
    (h1 : safeEvalA P s = .ok v) (h2 : RendersTo v t) :
    safeEvalA P t = .ok v := by
  obtain ⟨hne, hp⟩ := h2
  cases v with
  | int n =>
    have hp' : if 0 ≤ n then parsePy (normalizeA t) = .ok (.const (.pint n))
        else parsePy (normalizeA t) = .ok (.unop .usub (.const (.pint (-n)))) := hp
    by_cases hn : 0 ≤ n
    · rw [if_pos hn] at hp'
      unfold safeEvalA
      rw [hne]
      simp only [Bool.false_eq_true, if_false]
      rw [hp']
      rfl
    · rw [if_neg hn] at hp'
      unfold safeEvalA
      rw [hne]
      simp only [Bool.false_eq_true, if_false]
      rw [hp']
      show Except.ok (snapA (.int (-(-n)))) = .ok (.int n)
      rw [neg_neg]
      rfl
  | float q =>
    have hp' : if 0 ≤ q then parsePy (normalizeA t) = .ok (.const (.pfloat q))
        else parsePy (normalizeA t) = .ok (.unop .usub (.const (.pfloat (-q)))) := hp
    have hsnap : snapA (.float q) = .float q := safeEvalA_ok_snap P s _ h1
    by_cases hq : 0 ≤ q
    · rw [if_pos hq] at hp'
      unfold safeEvalA
      rw [hne]
      simp only [Bool.false_eq_true, if_false]
      rw [hp']
      show Except.ok (snapA (.float q)) = .ok (.float q)
      rw [hsnap]
    · rw [if_neg hq] at hp'
      unfold safeEvalA
      rw [hne]
      simp only [Bool.false_eq_true, if_false]
      rw [hp']
      show Except.ok (snapA (.float (-(-q)))) = .ok (.float q)
      rw [neg_neg, hsnap]
  | bool b => exact hp.elim
  | str s2 => exact hp.elim
  | pynone => exact hp.elim
  | complex => exact hp.elim
  | pyfun f => exact hp.elim

/-- Claim C10 witness: 7 - 4.5 evaluates to the double 2.5 and the string
2.5 renders it; 7 - 9.5 evaluates to the negative double -2.5 and the
string -2.5 renders it; re-evaluating either rendering returns the same
value. -/
theorem c10_round_trip_witness :
    safeEvalA P0 "7 - 4.5" = .ok (.float (5 / 2)) ∧
    RendersTo (.float (5 / 2)) "2.5" ∧
    safeEvalA P0 "2.5" = .ok (.float (5 / 2)) ∧
    safeEvalA P0 "7 - 9.5" = .ok (.float (-(5 / 2))) ∧
    RendersTo (.float (-(5 / 2))) "-2.5" ∧
    safeEvalA P0 "-2.5" = .ok (.float (-(5 / 2))) := by
  refine ⟨rfl, ⟨rfl, rfl⟩, ?_, rfl, ⟨rfl, rfl⟩, ?_⟩
  · exact c10_round_trip P0 "7 - 4.5" "2.5" (.float (5 / 2)) rfl ⟨rfl, rfl⟩
  · exact c10_round_trip P0 "7 - 9.5" "-2.5" (.float (-(5 / 2))) rfl ⟨rfl, rfl⟩

end PyCalc
